import Mathlib

/-!
Shallow embedding of the Scheduled Broadcast Engine of `yen.js`
(standardForward / batchForward / forwardWithClient / getRandomOpenTopic),
with theorems settling the frozen claims about it.

Modelling conventions:
* JS numbers holding delays (parseFloat input, doubled on rate limit) are
  rationals `ℚ`; wall-clock times (Date.now(), milliseconds) are `ℕ`.
* `Math.floor(Math.random() * n)` is modelled by `r % n` for an arbitrary
  seed `r : ℕ` (for `r < n` this is `r` itself, the value the code draws).
* Network effects are an oracle: each destination attempt is told by a
  `DeliverEnv` whether it succeeds (`none`) or fails with a given error
  message (`some msg`); likewise for the single retry.
* Blocking operations (`sleep`) are recorded as events in a trace instead
  of really blocking.
-/

/-- Topic of a forum chat, as stored in the cached group data:
`{id, title, closed}`; the title is display-only and omitted. -/
structure Topic where
  id : Nat
  closed : Bool
deriving Repr, DecidableEq

/-- Embedding of `getRandomOpenTopic(topics)` (yen.js:819-828): filter the
non-closed topics; if none remain return `null`, otherwise return the id of
the entry at `Math.floor(Math.random() * openTopics.length)`.  The random
draw is the seed `rand`, reduced mod the number of open topics. -/
def getRandomOpenTopic (topics : List Topic) (rand : Nat) : Option Nat :=
  let openTopics := topics.filter (fun t => !t.closed)
  if openTopics.length = 0 then
    none
  else
    (openTopics.get? (rand % openTopics.length)).map Topic.id

/-- Parse a decimal digit string (`Number.parseInt` on the digits captured
by the regex). -/
def parseDigitsNat (ds : List Char) : Nat :=
  ds.foldl (fun a c => a * 10 + (c.toNat - 48)) 0

/-- Match `FLOOD_WAIT_(\d+)` at the head of the character list: on the
literal marker followed by at least one digit, return the digits. -/
def floodDigitsAt : List Char → Option (List Char)
  | 'F' :: 'L' :: 'O' :: 'O' :: 'D' :: '_' :: 'W' :: 'A' :: 'I' :: 'T' :: '_' :: rest =>
      let ds := rest.takeWhile Char.isDigit
      if ds.isEmpty then none else some ds
  | _ => none

/-- Leftmost match of `FLOOD_WAIT_(\d+)` in a character list. -/
def findFloodWait : List Char → Option Nat
  | [] => none
  | c :: rest =>
    match floodDigitsAt (c :: rest) with
    | some ds => some (parseDigitsNat ds)
    | none => findFloodWait rest

/-- Embedding of `forwardError.message.match(/FLOOD_WAIT_(\d+)/)` followed by
`Number.parseInt` on the captured digits: the rate-limit wait hint carried by
an error message, if any. -/
def parseFloodWait (msg : String) : Option Nat :=
  findFloodWait msg.toList

/-- Decide whether the pattern is an initial segment of the text. -/
def listStartsWith : List Char → List Char → Bool
  | [], _ => true
  | _ :: _, [] => false
  | p :: ps, c :: cs => p == c && listStartsWith ps cs

/-- Decide whether the pattern occurs as a contiguous substring. -/
def listHasSub (pat : List Char) : List Char → Bool
  | [] => pat.isEmpty
  | c :: cs => listStartsWith pat (c :: cs) || listHasSub pat cs

/-- String inclusion, the model of JavaScript `String.prototype.includes`. -/
def strIncludes (s pat : String) : Bool :=
  listHasSub pat.toList s.toList

/-- Lower-case a string character-wise (`String.prototype.toLowerCase`). -/
def strLower (s : String) : String :=
  String.mk (s.toList.map Char.toLower)

/-- Embedding of `shouldSuppressError(error)` (yen.js:40-52): the lowered
message contains one of the connectivity-related markers. -/
def shouldSuppressError (msg : String) : Bool :=
  let lowered := strLower msg
  strIncludes lowered "timeout" ||
  strIncludes lowered "timed out" ||
  strIncludes lowered "etimedout" ||
  strIncludes lowered "network error" ||
  strIncludes lowered "connection" ||
  strIncludes lowered "disconnected" ||
  strIncludes lowered "socket"

/-- Embedding of the non-flood error classification in `forwardWithClient`
(yen.js:1718-1735): suppressible errors become "Connection issue", a few
known platform errors get human-readable text, anything else is kept. -/
def classifyForwardError (msg : String) : String :=
  if shouldSuppressError msg then "Connection issue"
  else if strIncludes msg "CHAT_WRITE_FORBIDDEN" then "Writing is forbidden in this chat"
  else if strIncludes msg "TOPIC_CLOSED" then "The topic is closed"
  else if strIncludes msg "CHANNEL_PRIVATE" then "The channel is private or you are not a member"
  else msg

/-- One cached destination group: entity id, writability
(`writeStatus.canWrite`), forum flag (`hasTopics`) and its topic list. -/
structure GroupInfo where
  entityId : Nat
  canWrite : Bool
  hasTopics : Bool
  topics : List Topic
deriving Repr, DecidableEq

/-- Oracle for one destination within a dispatch pass: outcome of the first
delivery attempt (`none` = success, `some msg` = failure with that message),
outcome of the single retry when one happens, and the two random seeds used
for topic selection on the first attempt and on the retry. -/
structure DeliverEnv where
  first : Option String
  retry : Option String
  rand1 : Nat
  rand2 : Nat
deriving Repr

/-- Observable event of a dispatch pass: a delivery attempt (destination and
the topic targeted, `none` = the root stream), the blocking wait after a
rate-limit hit (`sleep(waitSeconds * 1000)`), or the inter-destination sleep
of the lane's current delay (`sleep(config.currentDelay * 1000)`). -/
inductive Ev where
  | attempt (dest : Nat) (topic : Option Nat)
  | floodSleep (seconds : Nat)
  | delaySleep (delay : ℚ)
deriving Repr, DecidableEq

/-- Result record pushed into `results` for one destination:
`{success, group, error?}`. -/
structure ForwardResult where
  success : Bool
  group : Nat
  error : Option String
deriving Repr, DecidableEq

/-- Topic targeted by one delivery attempt in `forwardWithClient`
(yen.js:1620-1741): a group with `hasTopics` gets a fresh
`getRandomOpenTopic` draw, any other group is sent to its root stream
(`topMsgId` absent, modelled as `none`). -/
def topicSel (g : GroupInfo) (r : Nat) : Option Nat :=
  if g.hasTopics then getRandomOpenTopic g.topics r else none

/-- Delivery step of `forwardWithClient` for a single destination: attempt,
flood-wait/double/retry-once on a rate-limit hint, classify-and-fail on any
other error (see the doc comment above `topicSel` for topic targeting). -/
def forwardOneGroup (g : GroupInfo) (env : DeliverEnv) (delay : ℚ) :
    ForwardResult × ℚ × List Ev :=
  let topic1 := topicSel g env.rand1
  match env.first with
  | none =>
    (⟨true, g.entityId, none⟩, delay, [Ev.attempt g.entityId topic1])
  | some msg =>
    match parseFloodWait msg with
    | some w =>
      let newDelay := delay * 2
      let topic2 := topicSel g env.rand2
      match env.retry with
      | none =>
        (⟨true, g.entityId, none⟩, newDelay,
          [Ev.attempt g.entityId topic1, Ev.floodSleep w, Ev.attempt g.entityId topic2])
      | some rmsg =>
        (⟨false, g.entityId, some rmsg⟩, newDelay,
          [Ev.attempt g.entityId topic1, Ev.floodSleep w, Ev.attempt g.entityId topic2])
    | none =>
      (⟨false, g.entityId, some (classifyForwardError msg)⟩, delay,
        [Ev.attempt g.entityId topic1])

/-- Embedding of the destination loop of `forwardWithClient`
(yen.js:1620-1753): process destinations in order, threading the lane delay;
after every destination — the last one included — the code executes
`await sleep(config.currentDelay * 1000)`, recorded here as a
`delaySleep` event holding the delay current at that moment.  `i` indexes
the oracle. -/
def forwardLoop (envs : Nat → DeliverEnv) :
    List GroupInfo → Nat → ℚ → List ForwardResult × ℚ × List Ev
  | [], _, d => ([], d, [])
  | g :: gs, i, d =>
    let step := forwardOneGroup g (envs i) d
    let rest := forwardLoop envs gs (i + 1) step.2.1
    (step.1 :: rest.1, rest.2.1, step.2.2 ++ Ev.delaySleep step.2.1 :: rest.2.2)

/-- Message source reference entered by the operator:
`{sourceChannelId, messageId}`. -/
structure MsgSource where
  sourceChannelId : String
  messageId : Nat
deriving Repr, DecidableEq

/-- Per-account configuration built by `standardForward` (yen.js:1161-1167):
the lane's message sources, the operator-supplied delay stored both as
`initialDelay` and as the starting `currentDelay`, and the writable groups
(`groupData.groups` filtered on `writeStatus.canWrite`). -/
structure StdConfig where
  messageSources : List MsgSource
  initialDelay : ℚ
  currentDelay : ℚ
  writableGroups : List GroupInfo
deriving Repr, DecidableEq

/-- Construction of a lane config in `standardForward`: `currentDelay` is
initialised to the same `forwardDelay` the operator typed, and the group
list is filtered to the writable ones. -/
def mkStdConfig (sources : List MsgSource) (forwardDelay : ℚ)
    (groups : List GroupInfo) : StdConfig :=
  { messageSources := sources
    initialDelay := forwardDelay
    currentDelay := forwardDelay
    writableGroups := groups.filter (fun g => g.canWrite) }

/-- Embedding of `forwardWithClient(client, config, sourceChannel, messageId)`
(yen.js:1610-1763): run the destination loop from the config's current delay
over its writable groups; the mutation `config.currentDelay = ...` is
modelled by returning the updated config. -/
def forwardWithClient (cfg : StdConfig) (envs : Nat → DeliverEnv) :
    List ForwardResult × StdConfig × List Ev :=
  let r := forwardLoop envs cfg.writableGroups 0 cfg.currentDelay
  (r.1, { cfg with currentDelay := r.2.1 }, r.2.2)

/-- Oracle for one lane in one cycle: whether `connectClient` succeeds,
whether `client.getEntity(sourceChannelId)` succeeds, and the per-destination
delivery oracle for the dispatch pass. -/
structure LaneCycleEnv where
  connectOk : Bool
  resolveOk : Bool
  deliver : Nat → DeliverEnv

/-- Embedding of `(cycleCount - 1) % config.messageSources.length` followed by
the array access (yen.js:1228-1229): the message source a lane uses in the
given cycle.  With an empty source list the access yields `undefined` in the
code and the later dereference throws into the source-error catch; here it is
`none`, which the connection phase treats as a skip. -/
def selectMessageSource (cfg : StdConfig) (cycleCount : Nat) : Option MsgSource :=
  cfg.messageSources.get? ((cycleCount - 1) % cfg.messageSources.length)

/-- Connection phase of one lane in one cycle (yen.js:1225-1254): the lane
joins `connectedClients` only if `connectClient` succeeds and the cycle's
message source resolves; any failure skips the lane for this cycle. -/
def connectLane (cfg : StdConfig) (env : LaneCycleEnv) (cycleCount : Nat) :
    Option MsgSource :=
  if env.connectOk then
    match selectMessageSource cfg cycleCount with
    | some src => if env.resolveOk then some src else none
    | none => none
  else none

/-- One lane's share of a cycle: a skipped lane keeps its config untouched
and contributes no result array; a connected lane dispatches via
`forwardWithClient`, updating its config's delay. -/
def laneCycle (cfg : StdConfig) (env : LaneCycleEnv) (cycleCount : Nat) :
    StdConfig × Option (List ForwardResult) :=
  match connectLane cfg env cycleCount with
  | some _ =>
    let r := forwardWithClient cfg env.deliver
    (r.2.1, some r.1)
  | none => (cfg, none)

/-- The whole-cycle dispatch over all lanes (the connection loop
yen.js:1225-1254 followed by `Promise.all` yen.js:1256-1260): every config is
visited — a failed lane is merely skipped — and connected lanes' result
arrays are collected in lane order, the order `Promise.all` returns them in.
`i` is the index of the first lane, used to address the per-lane oracle. -/
def cycleDispatch (env : Nat → LaneCycleEnv) (cycleCount : Nat) :
    List StdConfig → Nat → List StdConfig × List (List ForwardResult)
  | [], _ => ([], [])
  | cfg :: rest, i =>
    let s := laneCycle cfg (env i) cycleCount
    let r := cycleDispatch env cycleCount rest (i + 1)
    (s.1 :: r.1, match s.2 with | some res => res :: r.2 | none => r.2)

/-- Number of results with `success = true` in one lane's result array
(`result.filter((r) => r.success).length`, yen.js:1264). -/
def countSuccess (rs : List ForwardResult) : Nat :=
  (rs.filter (fun r => r.success)).length

/-- Number of results with `success = false`
(`result.filter((r) => !r.success).length`, yen.js:1265). -/
def countFail (rs : List ForwardResult) : Nat :=
  (rs.filter (fun r => !r.success)).length

/-- Successes contributed by one cycle (summed over its lanes). -/
def cycleSuccessTotal (cyc : List (List ForwardResult)) : Nat :=
  (cyc.map countSuccess).sum

/-- Failures contributed by one cycle (summed over its lanes). -/
def cycleFailTotal (cyc : List (List ForwardResult)) : Nat :=
  (cyc.map countFail).sum

/-- Successes summed over a whole run's recorded cycles. -/
def runSuccessTotal (recs : List (List (List ForwardResult))) : Nat :=
  (recs.map cycleSuccessTotal).sum

/-- Failures summed over a whole run's recorded cycles. -/
def runFailTotal (recs : List (List (List ForwardResult))) : Nat :=
  (recs.map cycleFailTotal).sum

/-- Why the `standardForward` while-loop ended: the head check
`Date.now() < endTime` failed, the post-dispatch check
`Date.now() >= endTime` fired, or every lane failed to connect
(`connectedClients.length === 0`) and the loop broke. -/
inductive EndReason where
  | deadlineAtStart
  | deadlineAfterCycle
  | noClients
deriving Repr, DecidableEq

/-- Scheduler state of `standardForward`'s run loop: the cycle counter, the
two monotonic totals shown in the console title, the evolving lane configs,
and — for specification purposes — the time observed at the start of each
begun cycle and the per-cycle collected result arrays. -/
structure SchedState where
  cycleCount : Nat
  totalSuccess : Nat
  totalFail : Nat
  configs : List StdConfig
  cycleStartTimes : List Nat
  cycleRecords : List (List (List ForwardResult))
deriving Repr

/-- Embedding of the `while (Date.now() < endTime)` loop of `standardForward`
(yen.js:1210-1292).  `clock k` is the value of the k-th `Date.now()` call
(two calls are modelled per iteration: the head check and the post-dispatch
check); `env n i` is the oracle of lane `i` in cycle `n`.  `fuel` bounds the
number of iterations; `none` means the bound was hit, otherwise the final
state and the reason the loop ended. -/
def standardRun (clock : Nat → Nat) (env : Nat → Nat → LaneCycleEnv)
    (endTime : Nat) :
    Nat → Nat → SchedState → Option (SchedState × EndReason)
  | 0, _, _ => none
  | fuel + 1, k, st =>
    let tHead := clock k
    if tHead < endTime then
      let n := st.cycleCount + 1
      let d := cycleDispatch (env n) n st.configs 0
      if d.2.length = 0 then
        some ({ st with
                  cycleCount := n
                  configs := d.1
                  cycleStartTimes := st.cycleStartTimes ++ [tHead] },
              EndReason.noClients)
      else
        let st' : SchedState :=
          { cycleCount := n
            totalSuccess := st.totalSuccess + cycleSuccessTotal d.2
            totalFail := st.totalFail + cycleFailTotal d.2
            configs := d.1
            cycleStartTimes := st.cycleStartTimes ++ [tHead]
            cycleRecords := st.cycleRecords ++ [d.2] }
        if endTime ≤ clock (k + 1) then
          some (st', EndReason.deadlineAfterCycle)
        else
          standardRun clock env endTime fuel (k + 2) st'
    else
      some (st, EndReason.deadlineAtStart)

/-- Entry to the run loop (yen.js:1211-1216): `endTime` is the start time
plus the run duration, the counters start at zero, and the configs are the
operator-built lane configs. -/
def standardForwardRun (fuel : Nat) (clock : Nat → Nat)
    (env : Nat → Nat → LaneCycleEnv) (startTime durationMs : Nat)
    (cfgs : List StdConfig) : Option (SchedState × EndReason) :=
  standardRun clock env (startTime + durationMs) fuel 0
    ⟨0, 0, 0, cfgs, [], []⟩

/-- Per-account configuration built by `batchForward` (yen.js:1367-1375):
only the parts the claims touch are carried — the list of message batches
and the delay pairs. -/
structure BatchConfig where
  messageBatches : List (List MsgSource)
  initialMessageDelay : ℚ
  currentMessageDelay : ℚ
  initialBatchDelay : ℚ
  currentBatchDelay : ℚ
deriving Repr, DecidableEq

/-- Embedding of `(cycleCount - 1) % config.messageBatches.length` followed
by the array access (yen.js:1445-1446): the batch used in the given cycle. -/
def selectBatch (cfg : BatchConfig) (cycleCount : Nat) : Option (List MsgSource) :=
  cfg.messageBatches.get? ((cycleCount - 1) % cfg.messageBatches.length)

/-- Number of inter-destination sleeps (`sleep(config.currentDelay * 1000)`)
in a trace. -/
def countDelaySleeps (evs : List Ev) : Nat :=
  (evs.filter (fun e => match e with | Ev.delaySleep _ => true | _ => false)).length

/-- Number of rate-limit waits (and hence of delay doublings) in a trace. -/
def countFloodSleeps (evs : List Ev) : Nat :=
  (evs.filter (fun e => match e with | Ev.floodSleep _ => true | _ => false)).length

/-- Destinations of the delivery attempts of a trace, in order. -/
def attemptDests (evs : List Ev) : List Nat :=
  evs.filterMap (fun e => match e with | Ev.attempt d _ => some d | _ => none)

/-- Number of delivery attempts a destination receives under its oracle: two
when the first attempt fails with a flood-wait hint (the single retry), one
otherwise. -/
def attemptCount (env : DeliverEnv) : Nat :=
  match env.first with
  | none => 1
  | some msg => match parseFloodWait msg with
    | some _ => 2
    | none => 1

/-- Expected order of delivery attempts of a dispatch pass: each destination
contributes its attempts contiguously, in DestinationSet order. -/
def expectedAttemptDests (envs : Nat → DeliverEnv) :
    List GroupInfo → Nat → List Nat
  | [], _ => []
  | g :: gs, i =>
    List.replicate (attemptCount (envs i)) g.entityId ++
      expectedAttemptDests envs gs (i + 1)

/-- Lane-level scheduling event of one cycle: lane `i`'s dispatch task is
started, or lane `i`'s results are collected. -/
inductive LaneEv where
  | start (i : Nat)
  | collect (i : Nat)
deriving Repr, DecidableEq

/-- Lane scheduling shape of a `standardForward` cycle (yen.js:1256-1260):
`connectedClients.map(...)` calls `forwardWithClient` for every lane —
starting every task — before `await Promise.all` collects any result. -/
def standardLaneTrace (n : Nat) : List LaneEv :=
  (List.range n).map LaneEv.start ++ (List.range n).map LaneEv.collect

/-- Lane scheduling shape of a `batchForward` cycle (yen.js:1430-1434): the
`for (const config of accountConfigs)` loop awaits each lane's whole dispatch
before the next lane begins. -/
def batchLaneTrace (n : Nat) : List LaneEv :=
  (List.range n).flatMap (fun i => [LaneEv.start i, LaneEv.collect i])

/-- Whether a lane trace contains a start event. -/
def hasStart (tr : List LaneEv) : Bool :=
  tr.any (fun e => match e with | LaneEv.start _ => true | _ => false)

/-- Whether every lane start precedes every collection: no start event occurs
after any collect event. -/
def allStartsBeforeCollects : List LaneEv → Bool
  | [] => true
  | LaneEv.start _ :: rest => allStartsBeforeCollects rest
  | LaneEv.collect _ :: rest => !hasStart rest && allStartsBeforeCollects rest

/-- Whether a lane trace is strictly sequential: lane after lane, each one's
results collected before the next lane starts. -/
def lanesSequential : List LaneEv → Bool
  | [] => true
  | LaneEv.start i :: LaneEv.collect j :: rest => i == j && lanesSequential rest
  | _ => false

/-! Concrete fixtures used in the scenario theorems. -/

/-- Three writable destinations with no topics. -/
def threeGroups : List GroupInfo :=
  [⟨1, true, false, []⟩, ⟨2, true, false, []⟩, ⟨3, true, false, []⟩]

/-- Delivery oracle where every attempt succeeds. -/
def allOkEnv : Nat → DeliverEnv := fun _ => ⟨none, none, 0, 0⟩

/-- Delivery oracle whose first attempt hits a rate limit with a 5 second
hint and whose single retry succeeds. -/
def floodEnv : Nat → DeliverEnv := fun _ => ⟨some "FLOOD_WAIT_5", none, 0, 0⟩

/-- Lane oracle whose `connectClient` always fails. -/
def connFailEnv : Nat → Nat → LaneCycleEnv := fun _ _ => ⟨false, true, allOkEnv⟩

/-- Lane oracle that always connects, resolves, and delivers. -/
def allOkLaneEnv : Nat → Nat → LaneCycleEnv := fun _ _ => ⟨true, true, allOkEnv⟩

/-- A singleton message-source list. -/
def oneSource : List MsgSource := [⟨"source", 42⟩]

/-! Helper lemmas about traces and the destination loop. -/

theorem countFloodSleeps_append (a b : List Ev) :
    countFloodSleeps (a ++ b) = countFloodSleeps a + countFloodSleeps b := by
  simp [countFloodSleeps, List.filter_append]

theorem countDelaySleeps_append (a b : List Ev) :
    countDelaySleeps (a ++ b) = countDelaySleeps a + countDelaySleeps b := by
  simp [countDelaySleeps, List.filter_append]

theorem attemptDests_append (a b : List Ev) :
    attemptDests (a ++ b) = attemptDests a ++ attemptDests b := by
  simp [attemptDests]

theorem forwardOneGroup_delay_eq (g : GroupInfo) (env : DeliverEnv) (d : ℚ) :
    (forwardOneGroup g env d).2.1
      = d * 2 ^ countFloodSleeps (forwardOneGroup g env d).2.2 := by
  rcases hf : env.first with _ | msg
  · simp [forwardOneGroup, hf, countFloodSleeps]
  · rcases hw : parseFloodWait msg with _ | w
    · simp [forwardOneGroup, hf, hw, countFloodSleeps]
    · rcases hr : env.retry with _ | rmsg <;>
        simp [forwardOneGroup, hf, hw, hr, countFloodSleeps, List.filter]

theorem forwardOneGroup_no_delaySleep (g : GroupInfo) (env : DeliverEnv) (d : ℚ) :
    countDelaySleeps (forwardOneGroup g env d).2.2 = 0 := by
  rcases hf : env.first with _ | msg
  · simp [forwardOneGroup, hf, countDelaySleeps]
  · rcases hw : parseFloodWait msg with _ | w
    · simp [forwardOneGroup, hf, hw, countDelaySleeps]
    · rcases hr : env.retry with _ | rmsg <;>
        simp [forwardOneGroup, hf, hw, hr, countDelaySleeps, List.filter]

theorem forwardOneGroup_attemptDests (g : GroupInfo) (env : DeliverEnv) (d : ℚ) :
    attemptDests (forwardOneGroup g env d).2.2
      = List.replicate (attemptCount env) g.entityId := by
  rcases hf : env.first with _ | msg
  · simp [forwardOneGroup, hf, attemptDests, attemptCount, List.replicate]
  · rcases hw : parseFloodWait msg with _ | w
    · simp [forwardOneGroup, hf, hw, attemptDests, attemptCount, List.replicate]
    · rcases hr : env.retry with _ | rmsg <;>
        simp [forwardOneGroup, hf, hw, hr, attemptDests, attemptCount, List.replicate]

theorem countDelaySleeps_cons_delay (d : ℚ) (l : List Ev) :
    countDelaySleeps (Ev.delaySleep d :: l) = countDelaySleeps l + 1 := by
  simp [countDelaySleeps, List.filter]

theorem forwardLoop_results_length (envs : Nat → DeliverEnv) (gs : List GroupInfo)
    (i : Nat) (d : ℚ) : (forwardLoop envs gs i d).1.length = gs.length := by
  induction gs generalizing i d with
  | nil => simp [forwardLoop]
  | cons g gs ih => simp [forwardLoop, ih]

theorem forwardLoop_sleep_count (envs : Nat → DeliverEnv) (gs : List GroupInfo)
    (i : Nat) (d : ℚ) :
    countDelaySleeps (forwardLoop envs gs i d).2.2 = gs.length := by
  induction gs generalizing i d with
  | nil => simp [forwardLoop, countDelaySleeps]
  | cons g gs ih =>
    simp only [forwardLoop]
    rw [countDelaySleeps_append, forwardOneGroup_no_delaySleep,
      countDelaySleeps_cons_delay, ih]
    simp

theorem forwardLoop_delay_eq (envs : Nat → DeliverEnv) (gs : List GroupInfo)
    (i : Nat) (d : ℚ) :
    (forwardLoop envs gs i d).2.1
      = d * 2 ^ countFloodSleeps (forwardLoop envs gs i d).2.2 := by
  induction gs generalizing i d with
  | nil => simp [forwardLoop, countFloodSleeps]
  | cons g gs ih =>
    simp only [forwardLoop]
    rw [countFloodSleeps_append]
    have h1 := forwardOneGroup_delay_eq g (envs i) d
    have h2 := ih (i + 1) (forwardOneGroup g (envs i) d).2.1
    have hcons : countFloodSleeps
        (Ev.delaySleep (forwardOneGroup g (envs i) d).2.1
          :: (forwardLoop envs gs (i + 1) (forwardOneGroup g (envs i) d).2.1).2.2)
        = countFloodSleeps
            (forwardLoop envs gs (i + 1) (forwardOneGroup g (envs i) d).2.1).2.2 := by
      simp [countFloodSleeps, List.filter]
    rw [hcons, h2, h1, pow_add]
    ring

theorem one_le_two_pow_q (n : Nat) : (1 : ℚ) ≤ 2 ^ n := by
  induction n with
  | zero => norm_num
  | succ m ih => rw [pow_succ]; nlinarith

theorem forwardLoop_delay_ge (envs : Nat → DeliverEnv) (gs : List GroupInfo)
    (i : Nat) (d : ℚ) (h : 0 ≤ d) : d ≤ (forwardLoop envs gs i d).2.1 := by
  rw [forwardLoop_delay_eq]
  calc d = d * 1 := (mul_one d).symm
    _ ≤ d * 2 ^ countFloodSleeps (forwardLoop envs gs i d).2.2 :=
        mul_le_mul_of_nonneg_left (one_le_two_pow_q _) h

theorem forwardLoop_attemptDests (envs : Nat → DeliverEnv) (gs : List GroupInfo)
    (i : Nat) (d : ℚ) :
    attemptDests (forwardLoop envs gs i d).2.2 = expectedAttemptDests envs gs i := by
  induction gs generalizing i d with
  | nil => simp [forwardLoop, attemptDests, expectedAttemptDests]
  | cons g gs ih =>
    simp only [forwardLoop, expectedAttemptDests]
    rw [attemptDests_append]
    have hcons : attemptDests
        (Ev.delaySleep (forwardOneGroup g (envs i) d).2.1
          :: (forwardLoop envs gs (i + 1) (forwardOneGroup g (envs i) d).2.1).2.2)
        = attemptDests
            (forwardLoop envs gs (i + 1) (forwardOneGroup g (envs i) d).2.1).2.2 := by
      simp [attemptDests]
    rw [hcons, ih, forwardOneGroup_attemptDests]

/-! Helper lemmas about topic selection. -/

theorem getRandomOpenTopic_open {topics : List Topic} {r id : Nat}
    (h : getRandomOpenTopic topics r = some id) :
    ∃ t ∈ topics, t.closed = false ∧ t.id = id := by
  unfold getRandomOpenTopic at h
  by_cases hlen : (topics.filter (fun t => !t.closed)).length = 0
  · simp [hlen] at h
  · simp only [hlen, if_false] at h
    rcases Option.map_eq_some'.mp h with ⟨t, hget, hid⟩
    have hmem : t ∈ topics.filter (fun t => !t.closed) := List.get?_mem hget
    rcases List.mem_filter.mp hmem with ⟨hmemt, hop⟩
    exact ⟨t, hmemt, by simpa using hop, hid⟩

theorem getRandomOpenTopic_none {topics : List Topic} (r : Nat)
    (h : topics.filter (fun t => !t.closed) = []) :
    getRandomOpenTopic topics r = none := by
  unfold getRandomOpenTopic
  simp [h]

theorem getRandomOpenTopic_uniform (topics : List Topic) (j : Nat)
    (h : j < (topics.filter (fun t => !t.closed)).length) :
    getRandomOpenTopic topics j
      = some ((topics.filter (fun t => !t.closed)).get ⟨j, h⟩).id := by
  unfold getRandomOpenTopic
  have hlen : (topics.filter (fun t => !t.closed)).length ≠ 0 := by omega
  have hj : j % (topics.filter (fun t => !t.closed)).length = j := Nat.mod_eq_of_lt h
  simp only [hlen, if_false, hj]
  rw [List.get?_eq_get h]
  simp

theorem topicSel_open {g : GroupInfo} {r id : Nat}
    (h : topicSel g r = some id) :
    ∃ t ∈ g.topics, t.closed = false ∧ t.id = id := by
  unfold topicSel at h
  by_cases ht : g.hasTopics
  · exact getRandomOpenTopic_open (by simpa [ht] using h)
  · simp [ht] at h

theorem topicSel_none {g : GroupInfo} (r : Nat)
    (h : g.topics.filter (fun t => !t.closed) = []) :
    topicSel g r = none := by
  unfold topicSel
  by_cases ht : g.hasTopics <;> simp [ht, getRandomOpenTopic_none r h]

theorem forwardOneGroup_head (g : GroupInfo) (env : DeliverEnv) (d : ℚ) :
    (forwardOneGroup g env d).2.2.head?
      = some (Ev.attempt g.entityId (topicSel g env.rand1)) := by
  rcases hf : env.first with _ | msg
  · simp [forwardOneGroup, hf]
  · rcases hw : parseFloodWait msg with _ | w
    · simp [forwardOneGroup, hf, hw]
    · rcases hr : env.retry with _ | rmsg <;> simp [forwardOneGroup, hf, hw, hr]

/-! Helper lemmas about lane scheduling traces. -/

theorem hasStart_map_collect (xs : List Nat) :
    hasStart (xs.map LaneEv.collect) = false := by
  induction xs with
  | nil => rfl
  | cons x xs ih => simpa using ih

theorem allStartsBeforeCollects_collects (ys : List Nat) :
    allStartsBeforeCollects (ys.map LaneEv.collect) = true := by
  induction ys with
  | nil => rfl
  | cons y ys ih =>
    simp [allStartsBeforeCollects, hasStart_map_collect, ih]

theorem allStartsBeforeCollects_starts (xs : List Nat) (l : List LaneEv)
    (h : allStartsBeforeCollects l = true) :
    allStartsBeforeCollects (xs.map LaneEv.start ++ l) = true := by
  induction xs with
  | nil => simpa using h
  | cons x xs ih => simpa [allStartsBeforeCollects] using ih

theorem lanesSequential_flat (xs : List Nat) :
    lanesSequential (xs.flatMap (fun i => [LaneEv.start i, LaneEv.collect i])) = true := by
  induction xs with
  | nil => rfl
  | cons x xs ih => simpa [lanesSequential] using ih

/-! Helper lemmas about one lane's share of a cycle. -/

theorem laneCycle_initialDelay (cfg : StdConfig) (e : LaneCycleEnv) (n : Nat) :
    ((laneCycle cfg e n).1).initialDelay = cfg.initialDelay := by
  rcases h : connectLane cfg e n with _ | src <;>
    simp [laneCycle, h, forwardWithClient]

theorem laneCycle_sources (cfg : StdConfig) (e : LaneCycleEnv) (n : Nat) :
    ((laneCycle cfg e n).1).messageSources = cfg.messageSources := by
  rcases h : connectLane cfg e n with _ | src <;>
    simp [laneCycle, h, forwardWithClient]

theorem laneCycle_delay_ge (cfg : StdConfig) (e : LaneCycleEnv) (n : Nat)
    (h : 0 ≤ cfg.currentDelay) :
    cfg.currentDelay ≤ ((laneCycle cfg e n).1).currentDelay := by
  rcases hc : connectLane cfg e n with _ | src
  · simp [laneCycle, hc]
  · simp only [laneCycle, hc, forwardWithClient]
    exact forwardLoop_delay_ge _ _ _ _ h

theorem cycleDispatch_length (env : Nat → LaneCycleEnv) (n : Nat)
    (cfgs : List StdConfig) : ∀ i : Nat,
    ((cycleDispatch env n cfgs i).1).length = cfgs.length := by
  induction cfgs with
  | nil => intro i; rfl
  | cons cfg rest ih =>
    intro i
    simp only [cycleDispatch]
    simp [ih (i + 1)]

theorem cycleDispatch_get_sources (env : Nat → LaneCycleEnv) (n : Nat)
    (cfgs : List StdConfig) : ∀ i j : Nat,
    (((cycleDispatch env n cfgs i).1).get? j).map StdConfig.messageSources
      = (cfgs.get? j).map StdConfig.messageSources := by
  induction cfgs with
  | nil => intro i j; rfl
  | cons cfg rest ih =>
    intro i j
    cases j with
    | zero => simp [cycleDispatch, laneCycle_sources]
    | succ j => simpa [cycleDispatch] using ih (i + 1) j

theorem cycleDispatch_inv (env : Nat → LaneCycleEnv) (n : Nat)
    (P : StdConfig → Prop)
    (hP : ∀ cfg e, P cfg → P (laneCycle cfg e n).1) :
    ∀ (cfgs : List StdConfig) (i : Nat), (∀ cfg ∈ cfgs, P cfg) →
      ∀ cfg' ∈ (cycleDispatch env n cfgs i).1, P cfg' := by
  intro cfgs
  induction cfgs with
  | nil => intro i h cfg' hmem; simp [cycleDispatch] at hmem
  | cons cfg rest ih =>
    intro i h cfg' hmem
    simp only [cycleDispatch, List.mem_cons] at hmem
    rcases hmem with hmem | hmem
    · subst hmem; exact hP cfg (env i) (h cfg (List.mem_cons_self cfg rest))
    · exact ih (i + 1) (fun c hc => h c (List.mem_cons_of_mem cfg hc)) cfg' hmem

theorem selectMessageSource_isSome (cfg : StdConfig) (n : Nat)
    (h : cfg.messageSources ≠ []) :
    (selectMessageSource cfg n).isSome := by
  unfold selectMessageSource
  have hp : 0 < cfg.messageSources.length := List.length_pos.mpr h
  have hlt : (n - 1) % cfg.messageSources.length < cfg.messageSources.length :=
    Nat.mod_lt _ hp
  simp [List.getElem?_eq_getElem hlt]

theorem cycleDispatch_ne_nil (env : Nat → LaneCycleEnv) (n : Nat) :
    ∀ (cfgs : List StdConfig) (i j : Nat) (cfg : StdConfig),
      cfgs.get? j = some cfg → connectLane cfg (env (i + j)) n ≠ none →
      (cycleDispatch env n cfgs i).2 ≠ [] := by
  intro cfgs
  induction cfgs with
  | nil => intro i j cfg hget; simp at hget
  | cons c rest ih =>
    intro i j cfg hget hconn
    cases j with
    | zero =>
      have hcfg : cfg = c := by
        simp only [List.get?] at hget
        exact (Option.some.inj hget).symm
      subst hcfg
      simp only [Nat.add_zero] at hconn
      rcases hc : connectLane cfg (env i) n with _ | src
      · exact absurd hc hconn
      · simp [cycleDispatch, laneCycle, hc]
    | succ j =>
      simp only [List.get?] at hget
      have hidx : i + (j + 1) = (i + 1) + j := by omega
      rw [hidx] at hconn
      have htail := ih (i + 1) j cfg hget hconn
      simp only [cycleDispatch]
      rcases hs : (laneCycle c (env i) n).2 with _ | res
      · simpa [hs] using htail
      · simp [hs]

theorem runSuccessTotal_snoc (recs : List (List (List ForwardResult)))
    (x : List (List ForwardResult)) :
    runSuccessTotal (recs ++ [x]) = runSuccessTotal recs + cycleSuccessTotal x := by
  simp [runSuccessTotal]

theorem runFailTotal_snoc (recs : List (List (List ForwardResult)))
    (x : List (List ForwardResult)) :
    runFailTotal (recs ++ [x]) = runFailTotal recs + cycleFailTotal x := by
  simp [runFailTotal]

/-! Helper lemmas about the scheduler loop. -/

theorem standardRun_totals (clock : Nat → Nat) (env : Nat → Nat → LaneCycleEnv)
    (endTime : Nat) :
    ∀ (fuel k : Nat) (st st' : SchedState) (reason : EndReason),
      standardRun clock env endTime fuel k st = some (st', reason) →
      st.totalSuccess = runSuccessTotal st.cycleRecords →
      st.totalFail = runFailTotal st.cycleRecords →
      st'.totalSuccess = runSuccessTotal st'.cycleRecords
        ∧ st'.totalFail = runFailTotal st'.cycleRecords := by
  intro fuel
  induction fuel with
  | zero =>
    intro k st st' reason h
    simp [standardRun] at h
  | succ fuel ih =>
    intro k st st' reason h hs hf
    simp only [standardRun] at h
    by_cases h1 : clock k < endTime
    · rw [if_pos h1] at h
      by_cases h2 :
          (cycleDispatch (env (st.cycleCount + 1)) (st.cycleCount + 1) st.configs 0).2.length = 0
      · rw [if_pos h2] at h
        rcases Option.some.inj h with h3
        rcases Prod.mk.injEq .. ▸ h3 with ⟨h4, h5⟩
        subst h4
        exact ⟨hs, hf⟩
      · rw [if_neg h2] at h
        by_cases h3 : endTime ≤ clock (k + 1)
        · rw [if_pos h3] at h
          rcases Option.some.inj h with h4
          rcases Prod.mk.injEq .. ▸ h4 with ⟨h5, h6⟩
          subst h5
          constructor
          · simp only [runSuccessTotal_snoc]
            rw [← hs]
          · simp only [runFailTotal_snoc]
            rw [← hf]
        · rw [if_neg h3] at h
          refine ih (k + 2) _ st' reason h ?_ ?_
          · simp only [runSuccessTotal_snoc]
            rw [← hs]
          · simp only [runFailTotal_snoc]
            rw [← hf]
    · rw [if_neg h1] at h
      rcases Option.some.inj h with h3
      rcases Prod.mk.injEq .. ▸ h3 with ⟨h4, h5⟩
      subst h4
      exact ⟨hs, hf⟩

theorem standardRun_startTimes (clock : Nat → Nat) (env : Nat → Nat → LaneCycleEnv)
    (endTime : Nat) :
    ∀ (fuel k : Nat) (st st' : SchedState) (reason : EndReason),
      standardRun clock env endTime fuel k st = some (st', reason) →
      (∀ t ∈ st.cycleStartTimes, t < endTime) →
      ∀ t ∈ st'.cycleStartTimes, t < endTime := by
  intro fuel
  induction fuel with
  | zero =>
    intro k st st' reason h
    simp [standardRun] at h
  | succ fuel ih =>
    intro k st st' reason h hinv
    simp only [standardRun] at h
    by_cases h1 : clock k < endTime
    · rw [if_pos h1] at h
      have hinv' : ∀ t ∈ st.cycleStartTimes ++ [clock k], t < endTime := by
        intro t ht
        rcases List.mem_append.mp ht with ht | ht
        · exact hinv t ht
        · simpa using (List.mem_singleton.mp ht) ▸ h1
      by_cases h2 :
          (cycleDispatch (env (st.cycleCount + 1)) (st.cycleCount + 1) st.configs 0).2.length = 0
      · rw [if_pos h2] at h
        rcases Option.some.inj h with h3
        rcases Prod.mk.injEq .. ▸ h3 with ⟨h4, h5⟩
        subst h4
        exact hinv'
      · rw [if_neg h2] at h
        by_cases h3 : endTime ≤ clock (k + 1)
        · rw [if_pos h3] at h
          rcases Option.some.inj h with h4
          rcases Prod.mk.injEq .. ▸ h4 with ⟨h5, h6⟩
          subst h5
          exact hinv'
        · rw [if_neg h3] at h
          exact ih (k + 2) _ st' reason h hinv'
    · rw [if_neg h1] at h
      rcases Option.some.inj h with h3
      rcases Prod.mk.injEq .. ▸ h3 with ⟨h4, h5⟩
      subst h4
      exact hinv

theorem standardRun_configInv (clock : Nat → Nat) (env : Nat → Nat → LaneCycleEnv)
    (endTime : Nat) (P : StdConfig → Prop)
    (hP : ∀ cfg e n, P cfg → P (laneCycle cfg e n).1) :
    ∀ (fuel k : Nat) (st st' : SchedState) (reason : EndReason),
      standardRun clock env endTime fuel k st = some (st', reason) →
      (∀ cfg ∈ st.configs, P cfg) →
      ∀ cfg ∈ st'.configs, P cfg := by
  intro fuel
  induction fuel with
  | zero =>
    intro k st st' reason h
    simp [standardRun] at h
  | succ fuel ih =>
    intro k st st' reason h hinv
    simp only [standardRun] at h
    by_cases h1 : clock k < endTime
    · rw [if_pos h1] at h
      have hinv' : ∀ cfg ∈
          (cycleDispatch (env (st.cycleCount + 1)) (st.cycleCount + 1) st.configs 0).1,
          P cfg :=
        cycleDispatch_inv _ _ P (fun cfg e hc => hP cfg e _ hc) st.configs 0 hinv
      by_cases h2 :
          (cycleDispatch (env (st.cycleCount + 1)) (st.cycleCount + 1) st.configs 0).2.length = 0
      · rw [if_pos h2] at h
        rcases Option.some.inj h with h3
        rcases Prod.mk.injEq .. ▸ h3 with ⟨h4, h5⟩
        subst h4
        exact hinv'
      · rw [if_neg h2] at h
        by_cases h3 : endTime ≤ clock (k + 1)
        · rw [if_pos h3] at h
          rcases Option.some.inj h with h4
          rcases Prod.mk.injEq .. ▸ h4 with ⟨h5, h6⟩
          subst h5
          exact hinv'
        · rw [if_neg h3] at h
          exact ih (k + 2) _ st' reason h hinv'
    · rw [if_neg h1] at h
      rcases Option.some.inj h with h3
      rcases Prod.mk.injEq .. ▸ h3 with ⟨h4, h5⟩
      subst h4
      exact hinv

theorem standardRun_sources (clock : Nat → Nat) (env : Nat → Nat → LaneCycleEnv)
    (endTime : Nat) :
    ∀ (fuel k : Nat) (st st' : SchedState) (reason : EndReason),
      standardRun clock env endTime fuel k st = some (st', reason) →
      ∀ j : Nat, (st'.configs.get? j).map StdConfig.messageSources
        = (st.configs.get? j).map StdConfig.messageSources := by
  intro fuel
  induction fuel with
  | zero =>
    intro k st st' reason h
    simp [standardRun] at h
  | succ fuel ih =>
    intro k st st' reason h
    simp only [standardRun] at h
    by_cases h1 : clock k < endTime
    · rw [if_pos h1] at h
      by_cases h2 :
          (cycleDispatch (env (st.cycleCount + 1)) (st.cycleCount + 1) st.configs 0).2.length = 0
      · rw [if_pos h2] at h
        rcases Option.some.inj h with h3
        rcases Prod.mk.injEq .. ▸ h3 with ⟨h4, h5⟩
        subst h4
        intro j
        exact cycleDispatch_get_sources _ _ st.configs 0 j
      · rw [if_neg h2] at h
        by_cases h3 : endTime ≤ clock (k + 1)
        · rw [if_pos h3] at h
          rcases Option.some.inj h with h4
          rcases Prod.mk.injEq .. ▸ h4 with ⟨h5, h6⟩
          subst h5
          intro j
          exact cycleDispatch_get_sources _ _ st.configs 0 j
        · rw [if_neg h3] at h
          intro j
          rw [ih (k + 2) _ st' reason h j]
          exact cycleDispatch_get_sources _ _ st.configs 0 j
    · rw [if_neg h1] at h
      rcases Option.some.inj h with h3
      rcases Prod.mk.injEq .. ▸ h3 with ⟨h4, h5⟩
      subst h4
      intro j
      rfl

theorem standardRun_configs_length (clock : Nat → Nat) (env : Nat → Nat → LaneCycleEnv)
    (endTime : Nat) :
    ∀ (fuel k : Nat) (st st' : SchedState) (reason : EndReason),
      standardRun clock env endTime fuel k st = some (st', reason) →
      st'.configs.length = st.configs.length := by
  intro fuel
  induction fuel with
  | zero =>
    intro k st st' reason h
    simp [standardRun] at h
  | succ fuel ih =>
    intro k st st' reason h
    simp only [standardRun] at h
    by_cases h1 : clock k < endTime
    · rw [if_pos h1] at h
      by_cases h2 :
          (cycleDispatch (env (st.cycleCount + 1)) (st.cycleCount + 1) st.configs 0).2.length = 0
      · rw [if_pos h2] at h
        rcases Option.some.inj h with h3
        rcases Prod.mk.injEq .. ▸ h3 with ⟨h4, h5⟩
        subst h4
        exact cycleDispatch_length _ _ st.configs 0
      · rw [if_neg h2] at h
        by_cases h3 : endTime ≤ clock (k + 1)
        · rw [if_pos h3] at h
          rcases Option.some.inj h with h4
          rcases Prod.mk.injEq .. ▸ h4 with ⟨h5, h6⟩
          subst h5
          exact cycleDispatch_length _ _ st.configs 0
        · rw [if_neg h3] at h
          rw [ih (k + 2) _ st' reason h]
          exact cycleDispatch_length _ _ st.configs 0
    · rw [if_neg h1] at h
      rcases Option.some.inj h with h3
      rcases Prod.mk.injEq .. ▸ h3 with ⟨h4, h5⟩
      subst h4
      rfl

theorem connectLane_ne_none (cfg : StdConfig) (e : LaneCycleEnv) (n : Nat)
    (hc : e.connectOk = true) (hr : e.resolveOk = true)
    (hs : cfg.messageSources ≠ []) :
    connectLane cfg e n ≠ none := by
  unfold connectLane
  rcases hsel : selectMessageSource cfg n with _ | src
  · have := selectMessageSource_isSome cfg n hs
    simp [hsel] at this
  · simp [hc, hr, hsel]

theorem standardRun_not_noClients (clock : Nat → Nat) (env : Nat → Nat → LaneCycleEnv)
    (endTime : Nat) (cfgs0 : List StdConfig)
    (hcli : ∀ n, 1 ≤ n → ∃ j cfg, cfgs0.get? j = some cfg
      ∧ (env n j).connectOk = true ∧ (env n j).resolveOk = true
      ∧ cfg.messageSources ≠ []) :
    ∀ (fuel k : Nat) (st st' : SchedState) (reason : EndReason),
      standardRun clock env endTime fuel k st = some (st', reason) →
      (∀ j : Nat, (st.configs.get? j).map StdConfig.messageSources
        = (cfgs0.get? j).map StdConfig.messageSources) →
      reason ≠ EndReason.noClients := by
  intro fuel
  induction fuel with
  | zero =>
    intro k st st' reason h
    simp [standardRun] at h
  | succ fuel ih =>
    intro k st st' reason h hsrc
    simp only [standardRun] at h
    by_cases h1 : clock k < endTime
    · rw [if_pos h1] at h
      by_cases h2 :
          (cycleDispatch (env (st.cycleCount + 1)) (st.cycleCount + 1) st.configs 0).2.length = 0
      · exfalso
        rcases hcli (st.cycleCount + 1) (by omega) with ⟨j, cfg, hget, hco, hro, hne⟩
        have hcorr := hsrc j
        rw [hget] at hcorr
        rcases hget' : st.configs.get? j with _ | cfg'
        · rw [hget'] at hcorr; simp at hcorr
        · rw [hget'] at hcorr
          simp only [Option.map_some'] at hcorr
          have hsame : cfg'.messageSources = cfg.messageSources := Option.some.inj hcorr
          have hconn : connectLane cfg' (env (st.cycleCount + 1) j) (st.cycleCount + 1) ≠ none :=
            connectLane_ne_none cfg' _ _ hco hro (by rw [hsame]; exact hne)
          have hj : (0 : Nat) + j = j := Nat.zero_add j
          have hnil := cycleDispatch_ne_nil (env (st.cycleCount + 1)) (st.cycleCount + 1)
            st.configs 0 j cfg' hget' (by rw [hj]; exact hconn)
          exact hnil (List.length_eq_zero.mp h2)
      · rw [if_neg h2] at h
        by_cases h3 : endTime ≤ clock (k + 1)
        · rw [if_pos h3] at h
          rcases Option.some.inj h with h4
          rcases Prod.mk.injEq .. ▸ h4 with ⟨h5, h6⟩
          rw [← h6]
          simp
        · rw [if_neg h3] at h
          refine ih (k + 2) _ st' reason h ?_
          intro j
          rw [← hsrc j]
          exact cycleDispatch_get_sources _ _ st.configs 0 j
    · rw [if_neg h1] at h
      rcases Option.some.inj h with h3
      rcases Prod.mk.injEq .. ▸ h3 with ⟨h4, h5⟩
      rw [← h5]
      simp

/-! Main theorems, one per claim of the specification. -/

/-- C3 counterexample: the claim says a lane with `n` destinations performs
exactly `n - 1` inter-destination sleeps (3 destinations, all succeeding,
give 3 successes, 0 failures and exactly 2 sleeps).  On the code, a lane of
3 destinations that all succeed does give 3 successes and 0 failures, but
performs 3 inter-destination sleeps, not 2: `forwardWithClient` sleeps after
every destination — the last one included. -/
theorem claim3_counterexample :
    countSuccess (forwardWithClient (mkStdConfig oneSource 1 threeGroups) allOkEnv).1 = 3
    ∧ countFail (forwardWithClient (mkStdConfig oneSource 1 threeGroups) allOkEnv).1 = 0
    ∧ countDelaySleeps (forwardWithClient (mkStdConfig oneSource 1 threeGroups) allOkEnv).2.2 = 3
    ∧ countDelaySleeps (forwardWithClient (mkStdConfig oneSource 1 threeGroups) allOkEnv).2.2 ≠ 3 - 1 := by
  refine ⟨rfl, rfl, rfl, ?_⟩
  decide

/-- C3 (amended): within one lane's dispatch pass, the lane sleeps for the
current delay after every destination, the last one included: a pass over
`n` destinations performs exactly `n` inter-destination sleeps (and yields
exactly one result per destination). -/
theorem claim3_sleep_after_every_destination (cfg : StdConfig) (envs : Nat → DeliverEnv) :
    countDelaySleeps (forwardWithClient cfg envs).2.2 = cfg.writableGroups.length
    ∧ ((forwardWithClient cfg envs).1).length = cfg.writableGroups.length := by
  constructor
  · simpa [forwardWithClient] using
      forwardLoop_sleep_count envs cfg.writableGroups 0 cfg.currentDelay
  · simpa [forwardWithClient] using
      forwardLoop_results_length envs cfg.writableGroups 0 cfg.currentDelay

/-- C9 counterexample: the claim says every dispatch path of the engine —
batch mode included — runs one concurrent task per lane, all started before
any lane's results are collected.  The batch path processes lanes strictly
sequentially: with 2 lanes its schedule collects lane 0 before lane 1 even
starts, while the standard path does start all lanes first. -/
theorem claim9_counterexample :
    allStartsBeforeCollects (batchLaneTrace 2) = false
    ∧ allStartsBeforeCollects (standardLaneTrace 2) = true := by
  decide

/-- C9 (amended): in the standard dispatch path all lanes' tasks are started
before any lane's results are collected; in batch mode lanes are processed
strictly sequentially (each lane's results are collected before the next
lane starts); within a single lane destinations are processed strictly
sequentially and in DestinationSet order on every path, each destination's
attempts contiguous. -/
theorem claim9_lane_concurrency (n : Nat) :
    allStartsBeforeCollects (standardLaneTrace n) = true
    ∧ lanesSequential (batchLaneTrace n) = true
    ∧ (∀ (envs : Nat → DeliverEnv) (gs : List GroupInfo) (i : Nat) (d : ℚ),
        attemptDests (forwardLoop envs gs i d).2.2 = expectedAttemptDests envs gs i) := by
  refine ⟨?_, lanesSequential_flat _, fun envs gs i d => forwardLoop_attemptDests envs gs i d⟩
  exact allStartsBeforeCollects_starts _ _ (allStartsBeforeCollects_collects _)

/-- C8: topic selection never returns a closed topic; with at least one open
topic the seed picks uniformly among the open entries (seed `j` returns the
`j`-th open topic); with an empty or fully closed topic list it returns
`none`, and the delivery attempt then targets the destination's root
stream (`topic = none` in the attempt event). -/
theorem claim8_topic_selection :
    (∀ (topics : List Topic) (r id : Nat), getRandomOpenTopic topics r = some id →
        ∃ t ∈ topics, t.closed = false ∧ t.id = id)
    ∧ (∀ (topics : List Topic) (r : Nat), topics.filter (fun t => !t.closed) = [] →
        getRandomOpenTopic topics r = none)
    ∧ (∀ (topics : List Topic) (j : Nat)
        (h : j < (topics.filter (fun t => !t.closed)).length),
        getRandomOpenTopic topics j
          = some ((topics.filter (fun t => !t.closed)).get ⟨j, h⟩).id)
    ∧ (∀ (g : GroupInfo) (env : DeliverEnv) (d : ℚ),
        (forwardOneGroup g env d).2.2.head?
          = some (Ev.attempt g.entityId (topicSel g env.rand1)))
    ∧ (∀ (g : GroupInfo) (r : Nat), g.topics.filter (fun t => !t.closed) = [] →
        topicSel g r = none) := by
  exact ⟨fun _ _ _ h => getRandomOpenTopic_open h,
    fun _ r h => getRandomOpenTopic_none r h,
    fun topics j h => getRandomOpenTopic_uniform topics j h,
    fun g env d => forwardOneGroup_head g env d,
    fun g r h => topicSel_none r h⟩

/-- C8 witness: concrete instances — on a list whose only open topic has id
2, selection at seed 0 picks an open topic of the list; a list whose topics
are all closed yields `none`; and a group whose topics are all closed is
targeted at its root stream. -/
theorem claim8_topic_selection_witness :
    (∃ t ∈ [(⟨1, true⟩ : Topic), ⟨2, false⟩], t.closed = false ∧ t.id = 2)
    ∧ getRandomOpenTopic [⟨1, true⟩] 0 = none
    ∧ topicSel ⟨9, true, true, [⟨1, true⟩]⟩ 0 = none := by
  refine ⟨claim8_topic_selection.1 [⟨1, true⟩, ⟨2, false⟩] 0 2 rfl,
    claim8_topic_selection.2.1 [⟨1, true⟩] 0 rfl,
    claim8_topic_selection.2.2.2.2 ⟨9, true, true, [⟨1, true⟩]⟩ 0 rfl⟩

/-- C2: when a delivery attempt fails with an error carrying a `FLOOD_WAIT_w`
hint, the lane records the wait, doubles its delay, retries exactly once
(exactly two attempt events, the wait between them), and the retry's outcome
— success when the retry oracle reports success, failure with the retry's
error otherwise — is the destination's final result; the result recorded in
the pass's result list for that destination is precisely this record.  When
the error carries no hint there is a single attempt, no wait event and no
doubling, and the destination fails with the classified message. -/
theorem claim2_rate_limit_retry (g : GroupInfo) (env : DeliverEnv) (d : ℚ)
    (msg : String) (hf : env.first = some msg) :
    (∀ w, parseFloodWait msg = some w →
      (forwardOneGroup g env d).2.2
          = [Ev.attempt g.entityId (topicSel g env.rand1), Ev.floodSleep w,
             Ev.attempt g.entityId (topicSel g env.rand2)]
        ∧ (forwardOneGroup g env d).2.1 = d * 2
        ∧ (forwardOneGroup g env d).1.success = env.retry.isNone
        ∧ (forwardOneGroup g env d).1.error = env.retry
        ∧ (forwardOneGroup g env d).1.group = g.entityId)
    ∧ (parseFloodWait msg = none →
      (forwardOneGroup g env d).2.2 = [Ev.attempt g.entityId (topicSel g env.rand1)]
        ∧ (forwardOneGroup g env d).2.1 = d
        ∧ (forwardOneGroup g env d).1.success = false
        ∧ (forwardOneGroup g env d).1.error = some (classifyForwardError msg))
    ∧ (∀ (envs : Nat → DeliverEnv) (gs : List GroupInfo) (i : Nat), envs i = env →
        ((forwardLoop envs (g :: gs) i d).1).head? = some (forwardOneGroup g env d).1) := by
  refine ⟨?_, ?_, ?_⟩
  · intro w hw
    rcases hr : env.retry with _ | rmsg <;> simp [forwardOneGroup, hf, hw, hr]
  · intro hw
    simp [forwardOneGroup, hf, hw]
  · intro envs gs i he
    simp [forwardLoop, he]

/-- C2 witness: a destination whose first attempt fails with
`FLOOD_WAIT_3` and whose retry succeeds ends with a doubled delay and a
successful final record. -/
theorem claim2_rate_limit_retry_witness :
    (forwardOneGroup ⟨5, true, false, []⟩ ⟨some "FLOOD_WAIT_3", none, 0, 0⟩ 1).2.1 = 1 * 2
    ∧ (forwardOneGroup ⟨5, true, false, []⟩ ⟨some "FLOOD_WAIT_3", none, 0, 0⟩ 1).1.error
        = (⟨some "FLOOD_WAIT_3", none, 0, 0⟩ : DeliverEnv).retry := by
  have h := claim2_rate_limit_retry ⟨5, true, false, []⟩ ⟨some "FLOOD_WAIT_3", none, 0, 0⟩
    1 "FLOOD_WAIT_3" rfl
  exact ⟨(h.1 3 rfl).2.1, (h.1 3 rfl).2.2.2.1⟩

/-- C10: on the post-wait retry the topic is drawn afresh — the third trace
event is an attempt at the topic selected with the second seed, a value
independent of the first seed — the fresh draw still never lands on a closed
topic, and there are groups and seed pairs for which the retry topic differs
from the original attempt's topic. -/
theorem claim10_retry_topic_fresh (g : GroupInfo) (env : DeliverEnv) (d : ℚ)
    (msg : String) (w : Nat)
    (hf : env.first = some msg) (hw : parseFloodWait msg = some w) :
    (forwardOneGroup g env d).2.2.get? 2
        = some (Ev.attempt g.entityId (topicSel g env.rand2))
    ∧ (∀ r1, (forwardOneGroup g { env with rand1 := r1 } d).2.2.get? 2
        = (forwardOneGroup g env d).2.2.get? 2)
    ∧ (∀ id, topicSel g env.rand2 = some id →
        ∃ t ∈ g.topics, t.closed = false ∧ t.id = id)
    ∧ (∃ g2 : GroupInfo, ∃ r1 r2 : Nat, topicSel g2 r1 ≠ topicSel g2 r2) := by
  refine ⟨?_, ?_, fun id h => topicSel_open h, ?_⟩
  · rcases hr : env.retry with _ | rmsg <;> simp [forwardOneGroup, hf, hw, hr]
  · intro r1
    rcases hr : env.retry with _ | rmsg <;> simp [forwardOneGroup, hf, hw, hr]
  · exact ⟨⟨0, true, true, [⟨1, false⟩, ⟨2, false⟩]⟩, 0, 1, by decide⟩

/-- C10 witness: for a topic-bearing group with two open topics whose
delivery hits `FLOOD_WAIT_9`, the retry attempt targets the topic drawn by
the second seed. -/
theorem claim10_retry_topic_fresh_witness :
    (forwardOneGroup ⟨7, true, true, [⟨4, false⟩, ⟨6, false⟩]⟩
        ⟨some "FLOOD_WAIT_9", some "err", 0, 1⟩ 1).2.2.get? 2
      = some (Ev.attempt 7 (topicSel ⟨7, true, true, [⟨4, false⟩, ⟨6, false⟩]⟩ 1)) := by
  exact (claim10_retry_topic_fresh ⟨7, true, true, [⟨4, false⟩, ⟨6, false⟩]⟩
    ⟨some "FLOOD_WAIT_9", some "err", 0, 1⟩ 1 "FLOOD_WAIT_9" 9 rfl rfl).1

/-- C1 counterexample: the claim asserts `current delay ≥ initial delay` at
all times for every lane.  The operator-supplied delay is an unvalidated
`parseFloat`; with a negative initial delay (here −1) one rate-limit hit
doubles it to −2, strictly below the initial delay, so the invariant fails
as stated. -/
theorem claim1_counterexample :
    ¬ ((forwardWithClient (mkStdConfig oneSource (-1) threeGroups) floodEnv).2.1.initialDelay
      ≤ (forwardWithClient (mkStdConfig oneSource (-1) threeGroups) floodEnv).2.1.currentDelay) := by
  intro hle
  have hcur : (forwardWithClient (mkStdConfig oneSource (-1) threeGroups) floodEnv).2.1.currentDelay
      = -1 * 2 * 2 * 2 := rfl
  have hini : (forwardWithClient (mkStdConfig oneSource (-1) threeGroups) floodEnv).2.1.initialDelay
      = -1 := rfl
  rw [hcur, hini] at hle
  norm_num at hle

/-- C1 (amended): for every lane whose operator-supplied initial delay is
nonnegative, the current delay starts equal to the initial delay
(`mkStdConfig` sets both to the same input), is modified only by doubling —
after any dispatch pass it equals the delay before the pass times `2 ^ k`
where `k` is the number of rate-limit waits of the pass —, never decreases
across a pass, and over a whole scheduler run every lane's current delay
stays at or above its initial delay, with no reset between cycles. -/
theorem claim1_delay_ratchet
    (fuel : Nat) (clock : Nat → Nat) (env : Nat → Nat → LaneCycleEnv)
    (startTime durationMs : Nat) (cfgs : List StdConfig)
    (st : SchedState) (reason : EndReason)
    (hrun : standardForwardRun fuel clock env startTime durationMs cfgs = some (st, reason))
    (hinit : ∀ cfg ∈ cfgs, 0 ≤ cfg.initialDelay ∧ cfg.currentDelay = cfg.initialDelay) :
    (∀ (s : List MsgSource) (d : ℚ) (g : List GroupInfo),
        (mkStdConfig s d g).currentDelay = (mkStdConfig s d g).initialDelay)
    ∧ (∀ (cfg : StdConfig) (envs : Nat → DeliverEnv),
        (forwardWithClient cfg envs).2.1.currentDelay
          = cfg.currentDelay * 2 ^ countFloodSleeps (forwardWithClient cfg envs).2.2)
    ∧ (∀ (cfg : StdConfig) (envs : Nat → DeliverEnv), 0 ≤ cfg.currentDelay →
        cfg.currentDelay ≤ (forwardWithClient cfg envs).2.1.currentDelay)
    ∧ (∀ cfg ∈ st.configs, cfg.initialDelay ≤ cfg.currentDelay) := by
  refine ⟨fun s d g => rfl, ?_, ?_, ?_⟩
  · intro cfg envs
    simpa [forwardWithClient] using
      forwardLoop_delay_eq envs cfg.writableGroups 0 cfg.currentDelay
  · intro cfg envs h
    simpa [forwardWithClient] using
      forwardLoop_delay_ge envs cfg.writableGroups 0 cfg.currentDelay h
  · have hP : ∀ (cfg : StdConfig) (e : LaneCycleEnv) (n : Nat),
        (0 ≤ cfg.initialDelay ∧ cfg.initialDelay ≤ cfg.currentDelay) →
        (0 ≤ ((laneCycle cfg e n).1).initialDelay
          ∧ ((laneCycle cfg e n).1).initialDelay ≤ ((laneCycle cfg e n).1).currentDelay) := by
      intro cfg e n h
      rw [laneCycle_initialDelay]
      refine ⟨h.1, le_trans h.2 (laneCycle_delay_ge cfg e n (le_trans h.1 h.2))⟩
    have hfin := standardRun_configInv clock env (startTime + durationMs)
      (fun cfg => 0 ≤ cfg.initialDelay ∧ cfg.initialDelay ≤ cfg.currentDelay)
      hP fuel 0 _ st reason hrun
      (fun cfg hc => ⟨(hinit cfg hc).1, le_of_eq (hinit cfg hc).2.symm⟩)
    exact fun cfg hc => (hfin cfg hc).2

/-- C1 witness: a one-lane run with initial delay 1 — the current delay
starts equal to the initial delay and ends at or above it. -/
theorem claim1_delay_ratchet_witness :
    (mkStdConfig [] (1 : ℚ) []).currentDelay = (mkStdConfig [] (1 : ℚ) []).initialDelay
    ∧ (mkStdConfig [] (1 : ℚ) []).initialDelay ≤ (mkStdConfig [] (1 : ℚ) []).currentDelay := by
  have hinit : ∀ cfg ∈ [mkStdConfig [] (1 : ℚ) []],
      0 ≤ cfg.initialDelay ∧ cfg.currentDelay = cfg.initialDelay := by
    intro cfg hc
    rcases List.mem_singleton.mp hc with rfl
    exact ⟨by norm_num [mkStdConfig], rfl⟩
  have h := claim1_delay_ratchet 1 (fun _ => 0) allOkLaneEnv 0 0
    [mkStdConfig [] 1 []] ⟨0, 0, 0, [mkStdConfig [] 1 []], [], []⟩
    EndReason.deadlineAtStart rfl hinit
  exact ⟨h.1 [] 1 [], h.2.2.2 (mkStdConfig [] 1 []) (List.mem_singleton.mpr rfl)⟩

/-- C4 counterexample: the claim says the scheduler loop exits only on
deadline exhaustion or explicit cancellation, every error merely skipping a
lane for the cycle.  If every lane fails to connect in a cycle,
`standardForward` hits `connectedClients.length === 0` and breaks out of the
loop: here a one-lane run whose connect always fails ends with reason
`noClients` at observed time 0, far before the deadline of 1000. -/
theorem claim4_counterexample :
    standardForwardRun 2 (fun _ => 0) connFailEnv 0 1000
        [mkStdConfig oneSource 1 threeGroups]
      = some (⟨1, 0, 0, [mkStdConfig oneSource 1 threeGroups], [0], []⟩,
          EndReason.noClients)
    ∧ EndReason.noClients ≠ EndReason.deadlineAtStart
    ∧ EndReason.noClients ≠ EndReason.deadlineAfterCycle
    ∧ (0 : Nat) < 0 + 1000 := by
  refine ⟨rfl, by decide, by decide, by norm_num⟩

/-- C4 (amended): no delivery or resolution error ends the run and a failed
lane is only skipped for the cycle — its config is left untouched, it stays
in the lane list, and every lane is visited again next cycle — but the loop
has one extra exit: if every lane of a cycle fails to connect or resolve,
the run ends immediately (`noClients`).  Whenever each cycle has at least
one lane that connects, resolves, and has a message source, the run can
only end at the deadline. -/
theorem claim4_error_containment
    (fuel : Nat) (clock : Nat → Nat) (env : Nat → Nat → LaneCycleEnv)
    (startTime durationMs : Nat) (cfgs : List StdConfig)
    (st : SchedState) (reason : EndReason)
    (hrun : standardForwardRun fuel clock env startTime durationMs cfgs = some (st, reason))
    (hcli : ∀ n, 1 ≤ n → ∃ j cfg, cfgs.get? j = some cfg
      ∧ (env n j).connectOk = true ∧ (env n j).resolveOk = true
      ∧ cfg.messageSources ≠ []) :
    (reason = EndReason.deadlineAtStart ∨ reason = EndReason.deadlineAfterCycle)
    ∧ st.configs.length = cfgs.length
    ∧ (∀ (cfg : StdConfig) (e : LaneCycleEnv) (n : Nat), connectLane cfg e n = none →
        (laneCycle cfg e n).1 = cfg ∧ (laneCycle cfg e n).2 = none) := by
  refine ⟨?_, ?_, ?_⟩
  · have hn := standardRun_not_noClients clock env (startTime + durationMs) cfgs hcli
      fuel 0 _ st reason hrun (fun j => rfl)
    cases reason with
    | deadlineAtStart => exact Or.inl rfl
    | deadlineAfterCycle => exact Or.inr rfl
    | noClients => exact absurd rfl hn
  · exact standardRun_configs_length clock env (startTime + durationMs)
      fuel 0 _ st reason hrun
  · intro cfg e n hc
    constructor <;> simp [laneCycle, hc]

/-- C4 witness: a one-lane run that always connects and delivers, with a
clock that crosses the 10-tick deadline after the first cycle, ends on the
deadline, keeps its single lane, and the skip-only behaviour of a failed
connect holds. -/
theorem claim4_error_containment_witness :
    ((EndReason.deadlineAfterCycle = EndReason.deadlineAtStart
        ∨ EndReason.deadlineAfterCycle = EndReason.deadlineAfterCycle)
      ∧ ([mkStdConfig oneSource 1 []] : List StdConfig).length
          = ([mkStdConfig oneSource 1 []] : List StdConfig).length
      ∧ (∀ (cfg : StdConfig) (e : LaneCycleEnv) (n : Nat), connectLane cfg e n = none →
          (laneCycle cfg e n).1 = cfg ∧ (laneCycle cfg e n).2 = none)) := by
  have hcli : ∀ n, 1 ≤ n → ∃ j cfg,
      ([mkStdConfig oneSource 1 []] : List StdConfig).get? j = some cfg
      ∧ (allOkLaneEnv n j).connectOk = true ∧ (allOkLaneEnv n j).resolveOk = true
      ∧ cfg.messageSources ≠ [] := by
    intro n hn
    exact ⟨0, mkStdConfig oneSource 1 [], rfl, rfl, rfl, by simp [mkStdConfig, oneSource]⟩
  have h := claim4_error_containment 1 (fun k => k * 20) allOkLaneEnv 0 10
    [mkStdConfig oneSource 1 []]
    ⟨1, 0, 0, [mkStdConfig oneSource 1 []], [0], [[[]]]⟩
    EndReason.deadlineAfterCycle rfl hcli
  exact ⟨h.1, by rw [h.2.1], h.2.2⟩

theorem countSuccess_add_countFail (rs : List ForwardResult) :
    countSuccess rs + countFail rs = rs.length := by
  induction rs with
  | nil => rfl
  | cons r rs ih =>
    cases h : r.success <;>
      simp [countSuccess, countFail, List.filter, h] at ih ⊢ <;> omega

/-- C5: the run's total success and fail counters equal the sums, over all
executed cycles and all lanes, of the per-cycle result counts — nothing
lost, nothing double-counted: the totals over any prefix of the recorded
cycles are non-decreasing as cycles are added, every result record is
counted exactly once as either a success or a failure, and each dispatch
pass contributes exactly one record per destination. -/
theorem claim5_run_summary
    (fuel : Nat) (clock : Nat → Nat) (env : Nat → Nat → LaneCycleEnv)
    (startTime durationMs : Nat) (cfgs : List StdConfig)
    (st : SchedState) (reason : EndReason)
    (hrun : standardForwardRun fuel clock env startTime durationMs cfgs = some (st, reason)) :
    st.totalSuccess = runSuccessTotal st.cycleRecords
    ∧ st.totalFail = runFailTotal st.cycleRecords
    ∧ (∀ p : Nat,
        runSuccessTotal (st.cycleRecords.take p)
          ≤ runSuccessTotal (st.cycleRecords.take (p + 1))
        ∧ runFailTotal (st.cycleRecords.take p)
          ≤ runFailTotal (st.cycleRecords.take (p + 1)))
    ∧ (∀ rs : List ForwardResult, countSuccess rs + countFail rs = rs.length)
    ∧ (∀ (cfg : StdConfig) (envs : Nat → DeliverEnv),
        ((forwardWithClient cfg envs).1).length = cfg.writableGroups.length) := by
  have htot := standardRun_totals clock env (startTime + durationMs)
    fuel 0 _ st reason hrun rfl rfl
  refine ⟨htot.1, htot.2, ?_, countSuccess_add_countFail, ?_⟩
  · intro p
    constructor
    · rw [List.take_succ]
      simp only [runSuccessTotal, List.map_append, List.sum_append]
      omega
    · rw [List.take_succ]
      simp only [runFailTotal, List.map_append, List.sum_append]
      omega
  · intro cfg envs
    simpa [forwardWithClient] using
      forwardLoop_results_length envs cfg.writableGroups 0 cfg.currentDelay

/-- C5 witness: a one-lane, one-cycle run over zero destinations with totals
0 matching the sum over its single recorded cycle. -/
theorem claim5_run_summary_witness :
    (0 : Nat) = runSuccessTotal [[[]]]
    ∧ countSuccess [] + countFail [] = ([] : List ForwardResult).length := by
  have h := claim5_run_summary 1 (fun k => k * 20) allOkLaneEnv 0 10
    [mkStdConfig oneSource 1 []]
    ⟨1, 0, 0, [mkStdConfig oneSource 1 []], [0], [[[]]]⟩
    EndReason.deadlineAfterCycle rfl
  exact ⟨h.1, h.2.2.2.1 []⟩

/-- C6: for every cycle number `N ≥ 1`, the message source used in cycle `N`
is the one at index `(N − 1) mod sourceCount`, and in batch mode the batch
is the one at index `(N − 1) mod batchCount`; the selection is a pure
function of `N` and the list (periodic in `N` with period equal to the
count), and a connected lane dispatches exactly the selected source. -/
theorem claim6_round_robin (cfg : StdConfig) (bcfg : BatchConfig) (N : Nat)
    (hs : cfg.messageSources ≠ []) (hb : bcfg.messageBatches ≠ []) (hN : 1 ≤ N) :
    (∃ hlt : (N - 1) % cfg.messageSources.length < cfg.messageSources.length,
        selectMessageSource cfg N
          = some (cfg.messageSources.get ⟨(N - 1) % cfg.messageSources.length, hlt⟩))
    ∧ (∃ hlt : (N - 1) % bcfg.messageBatches.length < bcfg.messageBatches.length,
        selectBatch bcfg N
          = some (bcfg.messageBatches.get ⟨(N - 1) % bcfg.messageBatches.length, hlt⟩))
    ∧ selectMessageSource cfg (N + cfg.messageSources.length) = selectMessageSource cfg N
    ∧ selectBatch bcfg (N + bcfg.messageBatches.length) = selectBatch bcfg N
    ∧ (∀ (e : LaneCycleEnv) (src : MsgSource), connectLane cfg e N = some src →
        selectMessageSource cfg N = some src) := by
  have hp : 0 < cfg.messageSources.length := List.length_pos.mpr hs
  have hpb : 0 < bcfg.messageBatches.length := List.length_pos.mpr hb
  refine ⟨⟨Nat.mod_lt _ hp, List.get?_eq_get _⟩, ⟨Nat.mod_lt _ hpb, List.get?_eq_get _⟩,
    ?_, ?_, ?_⟩
  · unfold selectMessageSource
    have hidx : N + cfg.messageSources.length - 1 = (N - 1) + cfg.messageSources.length := by
      omega
    rw [hidx, Nat.add_mod_right]
  · unfold selectBatch
    have hidx : N + bcfg.messageBatches.length - 1 = (N - 1) + bcfg.messageBatches.length := by
      omega
    rw [hidx, Nat.add_mod_right]
  · intro e src h
    unfold connectLane at h
    rcases hsel : selectMessageSource cfg N with _ | s <;> rw [hsel] at h
    · by_cases hc : e.connectOk <;> simp [hc] at h
    · by_cases hc : e.connectOk <;> by_cases hr : e.resolveOk <;>
        simp [hc, hr] at h
      rw [h]

/-- C6 witness: with two sources, cycle 3 and cycle 5 select the same
source; with one batch, cycle 3 and cycle 4 select the same batch. -/
theorem claim6_round_robin_witness :
    selectMessageSource (mkStdConfig [⟨"a", 1⟩, ⟨"b", 2⟩] 1 [])
        (3 + (mkStdConfig [⟨"a", 1⟩, ⟨"b", 2⟩] 1 []).messageSources.length)
      = selectMessageSource (mkStdConfig [⟨"a", 1⟩, ⟨"b", 2⟩] 1 []) 3
    ∧ selectBatch ⟨[[⟨"a", 1⟩]], 1, 1, 1, 1⟩
        (3 + (⟨[[⟨"a", 1⟩]], 1, 1, 1, 1⟩ : BatchConfig).messageBatches.length)
      = selectBatch ⟨[[⟨"a", 1⟩]], 1, 1, 1, 1⟩ 3 := by
  have h := claim6_round_robin (mkStdConfig [⟨"a", 1⟩, ⟨"b", 2⟩] 1 [])
    ⟨[[⟨"a", 1⟩]], 1, 1, 1, 1⟩ 3 (by simp [mkStdConfig]) (by simp) (by norm_num)
  exact ⟨h.2.2.1, h.2.2.2.1⟩

/-- C7: no cycle ever begins at or after the deadline — every recorded cycle
start time is strictly below `startTime + durationMs` — and a run of
duration 0 (with a clock that never reads below the sampled start time)
executes zero cycles and ends immediately with empty totals and records. -/
theorem claim7_deadline_gate
    (fuel : Nat) (clock : Nat → Nat) (env : Nat → Nat → LaneCycleEnv)
    (startTime durationMs : Nat) (cfgs : List StdConfig)
    (st : SchedState) (reason : EndReason)
    (hrun : standardForwardRun fuel clock env startTime durationMs cfgs = some (st, reason)) :
    (∀ t ∈ st.cycleStartTimes, t < startTime + durationMs)
    ∧ (durationMs = 0 → startTime ≤ clock 0 →
        st.cycleCount = 0 ∧ st.totalSuccess = 0 ∧ st.totalFail = 0
        ∧ st.cycleStartTimes = [] ∧ st.cycleRecords = []
        ∧ reason = EndReason.deadlineAtStart) := by
  constructor
  · refine standardRun_startTimes clock env (startTime + durationMs)
      fuel 0 _ st reason hrun ?_
    intro t ht
    simp at ht
  · intro h0 hclk
    subst h0
    cases fuel with
    | zero => simp [standardForwardRun, standardRun] at hrun
    | succ fuel =>
      unfold standardForwardRun at hrun
      simp only [standardRun] at hrun
      have hlt : ¬ (clock 0 < startTime + 0) := by omega
      rw [if_neg hlt] at hrun
      rcases Option.some.inj hrun with h3
      rcases Prod.mk.injEq .. ▸ h3 with ⟨h4, h5⟩
      subst h4
      subst h5
      exact ⟨rfl, rfl, rfl, rfl, rfl, rfl⟩

/-- C7 witness: a run of duration 0 starting at time 5 with the clock at 5
executes zero cycles and reports the head-check deadline exit. -/
theorem claim7_deadline_gate_witness :
    (⟨0, 0, 0, [mkStdConfig oneSource 1 threeGroups], [], []⟩ : SchedState).cycleStartTimes = []
    ∧ EndReason.deadlineAtStart = EndReason.deadlineAtStart := by
  have h := claim7_deadline_gate 1 (fun _ => 5) allOkLaneEnv 5 0
    [mkStdConfig oneSource 1 threeGroups]
    ⟨0, 0, 0, [mkStdConfig oneSource 1 threeGroups], [], []⟩
    EndReason.deadlineAtStart rfl
  have h2 := h.2 rfl (by norm_num)
  exact ⟨h2.2.2.2.1, h2.2.2.2.2.2⟩
